import Mathlib

/-!
Verification of the xtteamSite backend data layer and HTTP handlers.

The development shallowly embeds the persistence layer of src/db.js
(tables `users`, `achievements`, `user_achievements` of the SQLite schema,
with the operations defined on them) and the JSON route handlers of
src/server.js (register, login, achievements listing, unlock).

Database errors and the bcrypt hash/compare functions are external to the
embedded code; handlers are parameterised over a hash or compare function,
and the one injected failure needed (a rejecting unlock insert) is an
explicit Boolean parameter of the register handler.
-/

namespace XtteamSite

/-- A row of the `users` table (id, username, password_hash, email, created_at).
The `email` column is nullable; `created_at` timestamps are abstracted as Nat. -/
structure UserRow where
  id : Nat
  username : String
  password_hash : String
  email : Option String
  created_at : Nat
deriving Repr, DecidableEq

/-- A row of the `achievements` table. -/
structure AchievementRow where
  id : Nat
  name : String
  description : String
  icon_path : String
  category : String
  created_at : Nat
deriving Repr, DecidableEq

/-- A row of the `user_achievements` join table; its PRIMARY KEY is the
pair (user_id, achievement_id). -/
structure UARow where
  user_id : Nat
  achievement_id : Nat
  unlocked_at : Nat
deriving Repr, DecidableEq

/-- The database state: the contents of the three tables. -/
structure DBState where
  users : List UserRow
  achievements : List AchievementRow
  user_achievements : List UARow
deriving Repr, DecidableEq

/-- Embeds `SELECT * FROM users WHERE username = ?` read through `db.get`
(first matching row). Returns the complete row, password_hash included. -/
def getUserByUsername (s : DBState) (username : String) : Option UserRow :=
  s.users.find? (fun u => u.username == username)

/-- The projection returned by `getUserById`, which selects only
`id, username, email, created_at`. -/
structure PublicUser where
  id : Nat
  username : String
  email : Option String
  created_at : Nat
deriving Repr, DecidableEq

/-- Embeds `SELECT id, username, email, created_at FROM users WHERE id = ?`. -/
def getUserById (s : DBState) (userId : Nat) : Option PublicUser :=
  (s.users.find? (fun u => u.id == userId)).map
    (fun u => { id := u.id, username := u.username, email := u.email,
                created_at := u.created_at })

/-- Embeds `db.verifyUser`: look the user up by username, return false when
absent, otherwise compare the password against the stored hash.  The bcrypt
comparison is the parameter `compare` (password first, hash second). -/
def verifyUser (compare : String → String → Bool) (s : DBState)
    (username password : String) : Bool :=
  match getUserByUsername s username with
  | none => false
  | some user => compare password user.password_hash

/-- SQLite AUTOINCREMENT for the `users` table: one more than the largest id. -/
def nextUserId (s : DBState) : Nat :=
  (s.users.map (fun u => u.id)).foldr max 0 + 1

/-- Whether a user with the given username exists (UNIQUE on username). -/
def usernameExists (s : DBState) (username : String) : Bool :=
  s.users.any (fun u => u.username == username)

/-- Whether some user already stores the given non-null email (UNIQUE on
email; NULLs never conflict in SQLite, so only `some` values are compared). -/
def emailExists (s : DBState) (email : String) : Bool :=
  s.users.any (fun u => u.email == some email)

/-- Embeds `db.createUser`: hash the password (bcrypt is the `hash`
parameter) and run the INSERT.  The INSERT rejects when the UNIQUE
constraint on username, or on a non-null email, is violated. -/
def createUser (hash : String → String) (s : DBState)
    (username password : String) (email : Option String) (now : Nat) :
    Except String (Nat × DBState) :=
  if usernameExists s username then
    .error "SQLITE_CONSTRAINT: UNIQUE constraint failed: users.username"
  else
    match email with
    | some e =>
      if emailExists s e then
        .error "SQLITE_CONSTRAINT: UNIQUE constraint failed: users.email"
      else
        .ok (nextUserId s, { s with users := s.users ++
          [{ id := nextUserId s, username := username,
             password_hash := hash password, email := email,
             created_at := now }] })
    | none =>
      .ok (nextUserId s, { s with users := s.users ++
        [{ id := nextUserId s, username := username,
           password_hash := hash password, email := email,
           created_at := now }] })

/-- Embeds `SELECT id FROM achievements WHERE name = ?` via `db.get`. -/
def findAchievementByName (s : DBState) (name : String) : Option AchievementRow :=
  s.achievements.find? (fun a => a.name == name)

/-- Embeds `SELECT 1 FROM user_achievements WHERE user_id = ? AND
achievement_id = ?` read as a Boolean. -/
def uaExists (s : DBState) (userId achievementId : Nat) : Bool :=
  s.user_achievements.any
    (fun r => r.user_id == userId && r.achievement_id == achievementId)

/-- Embeds `db.unlockAchievement` run without interference: find the
achievement by name (resolve false when absent), check whether the pair is
already unlocked (resolve false when so), otherwise INSERT the new row and
resolve true. -/
def unlockAchievement (s : DBState) (userId : Nat) (achievementName : String)
    (now : Nat) : Bool × DBState :=
  match findAchievementByName s achievementName with
  | none => (false, s)
  | some a =>
    if uaExists s userId a.id then (false, s)
    else (true, { s with user_achievements :=
      s.user_achievements ++ [{ user_id := userId, achievement_id := a.id,
                                unlocked_at := now }] })

/-- The comparison of `ORDER BY a.category, a.id`: ascending by category
(lexicographic on the TEXT column), ties broken by ascending id. -/
def achLE (a b : AchievementRow) : Bool :=
  decide (a.category < b.category) ||
    (a.category == b.category && decide (a.id ≤ b.id))

/-- Insert one element into a list kept sorted by `le`. -/
def insSorted (le : α → α → Bool) (x : α) : List α → List α
  | [] => [x]
  | y :: ys => if le x y then x :: y :: ys else y :: insSorted le x ys

/-- Sorting used to model a SQL ORDER BY clause: the output is a
permutation of the rows, sorted by the comparison. -/
def sortRows (le : α → α → Bool) (l : List α) : List α :=
  l.foldr (insSorted le) []

/-- Embeds `SELECT * FROM achievements ORDER BY category, id`
(`db.getAllAchievements`). -/
def getAllAchievements (s : DBState) : List AchievementRow :=
  sortRows achLE s.achievements

/-- Embeds `db.getUserAchievements`: every achievement row joined (LEFT
JOIN against this user's rows of `user_achievements`) with the Boolean
`unlocked` flag, ordered by category then id.  Under the primary key of
the join table a row matches at most once, so the CASE WHEN flag of the
SQL is exactly membership of the pair. -/
def getUserAchievements (s : DBState) (userId : Nat) :
    List (AchievementRow × Bool) :=
  (sortRows achLE s.achievements).map (fun a => (a, uaExists s userId a.id))

/-- One seed entry of the fixed achievement catalog in `db.initAchievements`. -/
structure SeedAchievement where
  name : String
  description : String
  icon_path : String
  category : String
deriving Repr, DecidableEq

/-- The fixed catalog of 8 achievements seeded by `db.initAchievements`. -/
def seedCatalog : List SeedAchievement :=
  [ { name := "Team Introduction",
      description := "Visited the 'About Us' section",
      icon_path := "team-icon", category := "about" },
    { name := "First News",
      description := "Scrolled to the first news article",
      icon_path := "news-icon", category := "news" },
    { name := "Game Observer",
      description := "Visited games section",
      icon_path := "games-icon", category := "games" },
    { name := "GameR",
      description := "Clicked download button on all available games",
      icon_path := "gamer-icon", category := "games" },
    { name := "With Registration!",
      description := "Successfully registered an account",
      icon_path := "registration-icon", category := "account" },
    { name := "Curious",
      description := "Hovered mouse over all tiles on homepage",
      icon_path := "curious-icon", category := "main" },
    { name := "Letter to Developer",
      description := "Sent an email to a developer",
      icon_path := "mail-icon", category := "contact" },
    { name := "YouTube Subscriber",
      description := "Visited developer's YouTube channel",
      icon_path := "youtube-icon", category := "contact" } ]

/-- AUTOINCREMENT for the `achievements` table. -/
def nextAchievementId (l : List AchievementRow) : Nat :=
  (l.map (fun a => a.id)).foldr max 0 + 1

/-- Embeds `db.addAchievement`: INSERT one catalog entry. -/
def addAchievement (l : List AchievementRow) (seed : SeedAchievement)
    (now : Nat) : List AchievementRow :=
  l ++ [{ id := nextAchievementId l, name := seed.name,
          description := seed.description, icon_path := seed.icon_path,
          category := seed.category, created_at := now }]

/-- Embeds `db.initAchievements`: `SELECT COUNT(*) FROM achievements`, and
only when the count is 0 insert the 8 catalog entries one by one. -/
def initAchievements (l : List AchievementRow) (now : Nat) :
    List AchievementRow :=
  if l.length == 0 then
    seedCatalog.foldl (fun acc seed => addAchievement acc seed now) l
  else l

/-- Database file contents before `initTables`: each table either absent or
present with its rows. -/
structure RawTables where
  users : Option (List UserRow)
  achievements : Option (List AchievementRow)
  user_achievements : Option (List UARow)
deriving Repr, DecidableEq

/-- CREATE TABLE IF NOT EXISTS: create the table empty when absent, keep it
untouched when present. -/
def createTableIfNotExists (t : Option (List α)) : Option (List α) :=
  match t with
  | none => some []
  | some rows => some rows

/-- Embeds `db.initTables`: CREATE TABLE IF NOT EXISTS for the three tables. -/
def initTables (r : RawTables) : RawTables :=
  { users := createTableIfNotExists r.users,
    achievements := createTableIfNotExists r.achievements,
    user_achievements := createTableIfNotExists r.user_achievements }

/-- One full initialization pass: `initTables` followed by
`initAchievements` on the (now existing) achievements table. -/
def initDatabase (r : RawTables) (now : Nat) : RawTables :=
  let r1 := initTables r
  { r1 with achievements := r1.achievements.map (fun l => initAchievements l now) }

/-! Fine-grained semantics of `db.unlockAchievement` for concurrency: the
function issues three separate statements (SELECT the achievement id,
SELECT the existing pair, INSERT), and two concurrent calls interleave
these atomic statements on the shared database.  The INSERT enforces the
PRIMARY KEY (user_id, achievement_id): when the pair already exists at
INSERT time the statement errors and the promise is rejected. -/

/-- Progress of one in-flight `unlockAchievement` call. -/
inductive UnlockPhase where
  | start
  | checking (achievementId : Nat)
  | inserting (achievementId : Nat)
  | resolved (result : Bool)
  | rejected
deriving Repr, DecidableEq

/-- Run the next atomic database statement of one call. -/
def unlockStep (userId : Nat) (achievementName : String) (now : Nat) :
    DBState × UnlockPhase → DBState × UnlockPhase
  | (s, .start) =>
    match findAchievementByName s achievementName with
    | none => (s, .resolved false)
    | some a => (s, .checking a.id)
  | (s, .checking aid) =>
    if uaExists s userId aid then (s, .resolved false) else (s, .inserting aid)
  | (s, .inserting aid) =>
    if uaExists s userId aid then (s, .rejected)
    else ({ s with user_achievements := s.user_achievements ++
             [{ user_id := userId, achievement_id := aid, unlocked_at := now }] },
          .resolved true)
  | (s, .resolved b) => (s, .resolved b)
  | (s, .rejected) => (s, .rejected)

/-- Two concurrent `unlockAchievement` calls for the same pair over the
shared database. -/
structure RacePair where
  db : DBState
  first : UnlockPhase
  second : UnlockPhase
deriving Repr, DecidableEq

/-- Let one of the two calls (chosen by `pickFirst`) run its next atomic
statement. -/
def raceStep (userId : Nat) (achievementName : String) (now : Nat)
    (pickFirst : Bool) (rs : RacePair) : RacePair :=
  if pickFirst then
    let r := unlockStep userId achievementName now (rs.db, rs.first)
    { rs with db := r.1, first := r.2 }
  else
    let r := unlockStep userId achievementName now (rs.db, rs.second)
    { rs with db := r.1, second := r.2 }

/-- Interleave the two calls according to a schedule. -/
def runRace (userId : Nat) (achievementName : String) (now : Nat)
    (schedule : List Bool) (rs : RacePair) : RacePair :=
  schedule.foldl (fun acc pick => raceStep userId achievementName now pick acc) rs

/-! The HTTP route handlers of src/server.js. -/

/-- The per-request session slots the handlers read and write. -/
structure Session where
  userId : Option Nat
  username : Option String
deriving Repr, DecidableEq

/-- JavaScript truthiness of a request body field holding a string:
`undefined` and the empty string are falsy. -/
def truthy : Option String → Bool
  | none => false
  | some s => !(s == "")

/-- A character admitted by the `[^\s@]` class of the email regex. -/
def emailOkChar (c : Char) : Bool :=
  !c.isWhitespace && !(c == '@')

/-- The test of the regex `^[^\s@]+@[^\s@]+\.[^\s@]+$`: exactly one `@`,
a nonempty whitespace-free local part, and a whitespace-free domain part
containing a dot that is neither its first nor its last character. -/
def emailRegexTest (s : String) : Bool :=
  match s.splitOn "@" with
  | [localPart, domainPart] =>
    !(localPart == "") && localPart.toList.all emailOkChar &&
      domainPart.toList.all emailOkChar &&
      ((domainPart.toList.drop 1).dropLast.contains '.')
  | _ => false

/-- Email normalization of the register handler: `cleanEmail` stays null
unless the field is truthy and nonblank after trimming, in which case it is
the trimmed value. -/
def cleanEmailOf : Option String → Option String
  | none => none
  | some e => if !(e == "") && !(e.trim == "") then some e.trim else none

/-- The client-visible outcomes of `POST /api/register`. -/
inductive RegisterResult where
  | missingFields
  | usernameTooShort
  | passwordTooShort
  | invalidEmail
  | usernameTaken
  | serverError (message : String)
  | success (id : Nat) (username : String)
deriving Repr, DecidableEq

/-- The input validation prefix of the register handler, in the code's
order: presence of username and password (one combined 400), then username
length, then password length, then the email shape on the normalized email. -/
def codeValidate (username password email : Option String) :
    Option RegisterResult :=
  if !truthy username || !truthy password then some .missingFields
  else if (username.getD "").length < 3 then some .usernameTooShort
  else if (password.getD "").length < 6 then some .passwordTooShort
  else
    match cleanEmailOf email with
    | some e => if emailRegexTest e then none else some .invalidEmail
    | none => none

/-- The catch block of the register handler: only messages containing
"duplicate key" are refined to a specific error text. -/
def catchMessage (m : String) : String :=
  if (m.splitOn "duplicate key").length > 1 then
    if (m.splitOn "email").length > 1 then "Email already registered"
    else if (m.splitOn "username").length > 1 then "Username already taken"
    else "Internal server error"
  else "Internal server error"

/-- Embeds `POST /api/register`: validation, duplicate-username pre-check,
`createUser`, session assignment, then `await db.unlockAchievement(userId,
"With Registration!")` still inside the try block — when that await rejects
(`unlockErr`), control reaches the catch and the response is the 500 error
even though the user row exists and the session is set. -/
def registerHandler (hash : String → String) (s : DBState) (sess : Session)
    (username password email : Option String) (unlockErr : Bool) (now : Nat) :
    RegisterResult × Session × DBState :=
  match codeValidate username password email with
  | some err => (err, sess, s)
  | none =>
    match getUserByUsername s (username.getD "") with
    | some _ => (.usernameTaken, sess, s)
    | none =>
      match createUser hash s (username.getD "") (password.getD "")
          (cleanEmailOf email) now with
      | .error m => (.serverError (catchMessage m), sess, s)
      | .ok (userId, s1) =>
        if unlockErr then
          (.serverError "Internal server error",
           { userId := some userId, username := some (username.getD "") }, s1)
        else
          (.success userId (username.getD ""),
           { userId := some userId, username := some (username.getD "") },
           (unlockAchievement s1 userId "With Registration!" now).2)

/-- The client-visible outcomes of `POST /api/login`. -/
inductive LoginResult where
  | missingFields
  | invalidCredentials
  | serverError
  | success (id : Nat) (username : String)
deriving Repr, DecidableEq

/-- Embeds `POST /api/login`: presence check, `verifyUser`, then re-fetch
of the user row and session assignment on success.  The unknown-username
and wrong-password failures both flow through the single `!isValid` branch. -/
def loginHandler (compare : String → String → Bool) (s : DBState)
    (sess : Session) (username password : Option String) :
    LoginResult × Session :=
  if !truthy username || !truthy password then (.missingFields, sess)
  else
    let u := username.getD ""
    let p := password.getD ""
    if verifyUser compare s u p then
      match getUserByUsername s u with
      | some user => (.success user.id user.username,
                      { userId := some user.id, username := some user.username })
      | none => (.serverError, sess)
    else (.invalidCredentials, sess)

/-- Embeds `GET /api/achievements`: with a session user id the per-user
join is used, otherwise `getAllAchievements` is mapped to all-locked
entries and no query touches `user_achievements`. -/
def achievementsHandler (s : DBState) (sess : Session) :
    List (AchievementRow × Bool) × Option PublicUser :=
  match sess.userId with
  | some userId => (getUserAchievements s userId, getUserById s userId)
  | none => ((getAllAchievements s).map (fun a => (a, false)), none)

/-- Replacing every stored password hash, used to state that an operation
never depends on the password_hash column. -/
def mapHashes (f : String → String) (s : DBState) : DBState :=
  { s with users := s.users.map (fun u => { u with password_hash := f u.password_hash }) }

/-- The (user_id, achievement_id) key of each `user_achievements` row. -/
def uaPairs (s : DBState) : List (Nat × Nat) :=
  s.user_achievements.map (fun r => (r.user_id, r.achievement_id))

/-- The invariant of the join table: at most one row per (user,
achievement) pair. -/
def AtMostOnePerPair (s : DBState) : Prop := (uaPairs s).Nodup

/-! Helper lemmas. -/

theorem insSorted_perm (le : α → α → Bool) (x : α) (l : List α) :
    (insSorted le x l).Perm (x :: l) := by
  induction l with
  | nil => simp [insSorted]
  | cons y ys ih =>
    simp only [insSorted]
    split
    · exact List.Perm.refl _
    · exact List.Perm.trans (List.Perm.cons y ih) (List.Perm.swap x y ys)

theorem sortRows_perm (le : α → α → Bool) (l : List α) :
    (sortRows le l).Perm l := by
  induction l with
  | nil => exact List.Perm.refl _
  | cons a l ih =>
    exact List.Perm.trans (insSorted_perm le a (sortRows le l)) (List.Perm.cons a ih)

theorem mem_insSorted (le : α → α → Bool) (x z : α) (l : List α)
    (h : z ∈ insSorted le x l) : z = x ∨ z ∈ l := by
  have h2 : z ∈ x :: l := (insSorted_perm le x l).mem_iff.mp h
  exact List.mem_cons.mp h2

theorem insSorted_sorted (le : α → α → Bool)
    (htrans : ∀ a b c, le a b = true → le b c = true → le a c = true)
    (htotal : ∀ a b, le a b = true ∨ le b a = true)
    (x : α) (l : List α) (h : l.Pairwise (fun a b => le a b = true)) :
    (insSorted le x l).Pairwise (fun a b => le a b = true) := by
  induction l with
  | nil => simp [insSorted]
  | cons y ys ih =>
    rw [List.pairwise_cons] at h
    obtain ⟨hy, hys⟩ := h
    simp only [insSorted]
    split
    next hxy =>
      rw [List.pairwise_cons]
      refine ⟨?_, List.pairwise_cons.mpr ⟨hy, hys⟩⟩
      intro z hz
      rcases List.mem_cons.mp hz with rfl | hz2
      · exact hxy
      · exact htrans x y z hxy (hy z hz2)
    next hxy =>
      have hyx : le y x = true := by
        rcases htotal x y with h1 | h1
        · exact absurd h1 (by simpa using hxy)
        · exact h1
      rw [List.pairwise_cons]
      refine ⟨?_, ih hys⟩
      intro z hz
      rcases mem_insSorted le x z ys hz with rfl | hz2
      · exact hyx
      · exact hy z hz2

theorem sortRows_sorted (le : α → α → Bool)
    (htrans : ∀ a b c, le a b = true → le b c = true → le a c = true)
    (htotal : ∀ a b, le a b = true ∨ le b a = true)
    (l : List α) :
    (sortRows le l).Pairwise (fun a b => le a b = true) := by
  induction l with
  | nil => simp [sortRows]
  | cons a l ih => exact insSorted_sorted le htrans htotal a (sortRows le l) ih

theorem achLE_total (a b : AchievementRow) : achLE a b = true ∨ achLE b a = true := by
  unfold achLE
  simp only [Bool.or_eq_true, Bool.and_eq_true, decide_eq_true_eq, beq_iff_eq]
  rcases lt_trichotomy a.category b.category with h | h | h
  · exact Or.inl (Or.inl h)
  · rcases Nat.le_total a.id b.id with h2 | h2
    · exact Or.inl (Or.inr ⟨h, h2⟩)
    · exact Or.inr (Or.inr ⟨h.symm, h2⟩)
  · exact Or.inr (Or.inl h)

theorem achLE_trans (a b c : AchievementRow)
    (h1 : achLE a b = true) (h2 : achLE b c = true) : achLE a c = true := by
  unfold achLE at h1 h2 ⊢
  simp only [Bool.or_eq_true, Bool.and_eq_true, decide_eq_true_eq, beq_iff_eq] at h1 h2 ⊢
  rcases h1 with h1 | ⟨h1e, h1le⟩
  · rcases h2 with h2 | ⟨h2e, h2le⟩
    · exact Or.inl (lt_trans h1 h2)
    · exact Or.inl (h2e ▸ h1)
  · rcases h2 with h2 | ⟨h2e, h2le⟩
    · exact Or.inl (h1e ▸ h2)
    · exact Or.inr ⟨h1e.trans h2e, Nat.le_trans h1le h2le⟩

theorem pair_not_mem_of_uaExists_false (s : DBState) (uid aid : Nat)
    (h : uaExists s uid aid = false) : (uid, aid) ∉ uaPairs s := by
  intro hmem
  simp only [uaPairs, List.mem_map] at hmem
  obtain ⟨r, hr, heq⟩ := hmem
  have hpr : r.user_id = uid ∧ r.achievement_id = aid := Prod.mk.inj heq
  have h2 : uaExists s uid aid = true := by
    unfold uaExists
    rw [List.any_eq_true]
    exact ⟨r, hr, by simp [hpr.1, hpr.2]⟩
  rw [h] at h2
  exact Bool.false_ne_true h2

/-! Concrete fixtures used by witnesses. -/

/-- The seeded "With Registration!" achievement row. -/
def regAchRow : AchievementRow :=
  { id := 1, name := "With Registration!",
    description := "Successfully registered an account",
    icon_path := "registration-icon", category := "account", created_at := 0 }

/-- A fresh database holding only the registration achievement. -/
def witnessState : DBState :=
  { users := [], achievements := [regAchRow], user_achievements := [] }

/-- An unauthenticated session. -/
def sess0 : Session := { userId := none, username := none }

/-- A stand-in for the bcrypt hash in concrete runs. -/
def regHash : String → String := fun p => p ++ "#hash"

/-- A stand-in for the bcrypt comparison in concrete runs: the password
matches exactly when hashing it gives the stored hash. -/
def regCompare : String → String → Bool := fun p h => regHash p == h

/-! Claims. -/

/-- C1: `unlockAchievement(userId, achievementName)` resolves to false
(without throwing) when no achievement row has that name, resolves to
false when a `user_achievements` row for the pair already exists, and
resolves to true exactly when it inserts a new `user_achievements` row. -/
theorem claim_C1 (s : DBState) (userId : Nat) (achievementName : String) (now : Nat) :
    ((∀ a ∈ s.achievements, a.name ≠ achievementName) →
      unlockAchievement s userId achievementName now = (false, s)) ∧
    (∀ a, findAchievementByName s achievementName = some a →
      uaExists s userId a.id = true →
      unlockAchievement s userId achievementName now = (false, s)) ∧
    ((unlockAchievement s userId achievementName now).1 = true ↔
      (unlockAchievement s userId achievementName now).2.user_achievements.length
        = s.user_achievements.length + 1) ∧
    ((unlockAchievement s userId achievementName now).1 = false →
      (unlockAchievement s userId achievementName now).2 = s) := by
  refine ⟨?_, ?_, ?_, ?_⟩
  · intro hnone
    have hfind : findAchievementByName s achievementName = none := by
      unfold findAchievementByName
      rw [List.find?_eq_none]
      intro a ha
      simp [hnone a ha]
    unfold unlockAchievement
    rw [hfind]
  · intro a hfind hex
    unfold unlockAchievement
    rw [hfind]
    simp [hex]
  · unfold unlockAchievement
    cases hfind : findAchievementByName s achievementName with
    | none => simp
    | some a =>
      by_cases hex : uaExists s userId a.id = true
      · simp [hex]
      · simp [hex]
  · unfold unlockAchievement
    cases hfind : findAchievementByName s achievementName with
    | none => simp
    | some a =>
      by_cases hex : uaExists s userId a.id = true
      · simp [hex]
      · simp [hex]

/-- Witness for C1: on a fresh database, unlocking a nonexistent
achievement name resolves to false and changes nothing. -/
theorem claim_C1_witness :
    unlockAchievement witnessState 7 "Nonexistent Name" 3 = (false, witnessState) :=
  (claim_C1 witnessState 7 "Nonexistent Name" 3).1 (by decide)

/-- C3 (behaviour at the failing interleaving): when two concurrent
`unlockAchievement` calls for the same (user, achievement) pair both pass
the pre-check before either INSERT runs, one call resolves true but the
other is rejected by the PRIMARY KEY violation instead of resolving false;
exactly one join row exists afterwards. -/
theorem claim_C3 :
    runRace 7 "With Registration!" 3 [true, false, true, false, true, false]
        { db := witnessState, first := .start, second := .start } =
      { db := { witnessState with user_achievements :=
                  [{ user_id := 7, achievement_id := 1, unlocked_at := 3 }] },
        first := .resolved true, second := .rejected } := by
  decide

/-- C4 (behaviour at the failing input): when the awaited registration
unlock rejects, the register handler answers with the 500 error even
though the user row was inserted and the session was set — the
registration outcome is not the success result the claim requires. -/
theorem claim_C4 :
    (registerHandler regHash witnessState sess0 (some "bob") (some "secret123")
        none true 5).1 = .serverError "Internal server error" ∧
    (registerHandler regHash witnessState sess0 (some "bob") (some "secret123")
        none true 5).2.2.users.map (fun u => u.username) = ["bob"] ∧
    (registerHandler regHash witnessState sess0 (some "bob") (some "secret123")
        none true 5).2.1 = { userId := some 1, username := some "bob" } := by
  decide

/-- C2: `unlockAchievement` preserves the at-most-one-row-per-pair
invariant of `user_achievements` (and `createUser`, the only other
mutation, never touches that table); two sequential unlock calls for the
same pair yield true then false and leave exactly one row for the pair. -/
theorem claim_C2 :
    (∀ s userId achievementName now, AtMostOnePerPair s →
      AtMostOnePerPair (unlockAchievement s userId achievementName now).2) ∧
    (∀ hash s username password email now uid s2,
      createUser hash s username password email now = .ok (uid, s2) →
      s2.user_achievements = s.user_achievements) ∧
    (∀ s userId achievementName now now2 a,
      findAchievementByName s achievementName = some a →
      uaExists s userId a.id = false →
      (unlockAchievement s userId achievementName now).1 = true ∧
      (unlockAchievement (unlockAchievement s userId achievementName now).2
          userId achievementName now2).1 = false ∧
      ((unlockAchievement (unlockAchievement s userId achievementName now).2
          userId achievementName now2).2.user_achievements.filter
        (fun r => r.user_id == userId && r.achievement_id == a.id)).length = 1) := by
  refine ⟨?_, ?_, ?_⟩
  · intro s userId achievementName now hinv
    unfold unlockAchievement
    cases hfind : findAchievementByName s achievementName with
    | none => exact hinv
    | some a =>
      by_cases hex : uaExists s userId a.id = true
      · simp only [hex, if_true]
        exact hinv
      · rw [Bool.not_eq_true] at hex
        simp only [hex, Bool.false_eq_true, if_false]
        unfold AtMostOnePerPair uaPairs at hinv ⊢
        simp only [List.map_append, List.map_cons, List.map_nil]
        have hperm : ((s.user_achievements.map
              (fun r => (r.user_id, r.achievement_id))) ++ [(userId, a.id)]).Perm
            ((userId, a.id) :: s.user_achievements.map
              (fun r => (r.user_id, r.achievement_id))) :=
          List.perm_append_singleton _ _
        rw [hperm.nodup_iff, List.nodup_cons]
        exact ⟨pair_not_mem_of_uaExists_false s userId a.id hex, hinv⟩
  · intro hash s username password email now uid s2 h
    unfold createUser at h
    by_cases h1 : usernameExists s username = true
    · simp [h1] at h
    · rw [Bool.not_eq_true] at h1
      cases hemail : email with
      | some e =>
        by_cases h2 : emailExists s e = true
        · simp [h1, h2, hemail] at h
        · rw [Bool.not_eq_true] at h2
          simp only [h1, h2, hemail, Bool.false_eq_true, if_false] at h
          cases h
          rfl
      | none =>
        simp only [h1, hemail, Bool.false_eq_true, if_false] at h
        cases h
        rfl
  · intro s userId achievementName now now2 a hfind hex
    have hstep : unlockAchievement s userId achievementName now =
        (true, { s with user_achievements := s.user_achievements ++
          [{ user_id := userId, achievement_id := a.id, unlocked_at := now }] }) := by
      unfold unlockAchievement
      rw [hfind]
      simp [hex]
    have hfind1 : findAchievementByName
        { s with user_achievements := s.user_achievements ++
          [{ user_id := userId, achievement_id := a.id, unlocked_at := now }] }
        achievementName = some a := hfind
    have hex1 : uaExists
        { s with user_achievements := s.user_achievements ++
          [{ user_id := userId, achievement_id := a.id, unlocked_at := now }] }
        userId a.id = true := by
      unfold uaExists
      simp
    have hstep2 : unlockAchievement
        { s with user_achievements := s.user_achievements ++
          [{ user_id := userId, achievement_id := a.id, unlocked_at := now }] }
        userId achievementName now2 =
        (false, { s with user_achievements := s.user_achievements ++
          [{ user_id := userId, achievement_id := a.id, unlocked_at := now }] }) := by
      unfold unlockAchievement
      rw [hfind1]
      simp [hex1]
    have hfilter : s.user_achievements.filter
        (fun r => r.user_id == userId && r.achievement_id == a.id) = [] := by
      rcases hcase : s.user_achievements.filter
          (fun r => r.user_id == userId && r.achievement_id == a.id) with _ | ⟨r, rest⟩
      · exact hcase
      · exfalso
        have hrmem : r ∈ s.user_achievements.filter
            (fun r => r.user_id == userId && r.achievement_id == a.id) := by
          rw [hcase]
          exact List.mem_cons_self r rest
        rw [List.mem_filter] at hrmem
        have h2 : uaExists s userId a.id = true := by
          unfold uaExists
          rw [List.any_eq_true]
          exact ⟨r, hrmem.1, hrmem.2⟩
        rw [hex] at h2
        exact Bool.false_ne_true h2
    refine ⟨by rw [hstep], ?_, ?_⟩
    · rw [hstep, hstep2]
    · rw [hstep, hstep2]
      simp only [List.filter_append]
      rw [hfilter]
      simp

/-- Witness for C2: two sequential unlocks of the registration achievement
for user 7 on a fresh database yield true then false and leave exactly one
row, and the invariant is preserved. -/
theorem claim_C2_witness :
    AtMostOnePerPair (unlockAchievement witnessState 7 "With Registration!" 3).2 ∧
    (unlockAchievement witnessState 7 "With Registration!" 3).1 = true ∧
    (unlockAchievement (unlockAchievement witnessState 7 "With Registration!" 3).2
        7 "With Registration!" 4).1 = false ∧
    ((unlockAchievement (unlockAchievement witnessState 7 "With Registration!" 3).2
        7 "With Registration!" 4).2.user_achievements.filter
      (fun r => r.user_id == 7 && r.achievement_id == regAchRow.id)).length = 1 := by
  have h1 := claim_C2.1 witnessState 7 "With Registration!" 3
    (by unfold AtMostOnePerPair; decide)
  have h3 := claim_C2.2.2 witnessState 7 "With Registration!" 3 4 regAchRow
    (by decide) (by decide)
  exact ⟨h1, h3.1, h3.2.1, h3.2.2⟩

/-- C5: `verifyUser` returns false when the user is absent and otherwise
the comparison of the password against the stored hash; a login with an
unknown username and a login with a known username but non-matching
password produce the very same InvalidCredentials response (with the
session untouched), indistinguishable to the caller. -/
theorem claim_C5 (compare : String → String → Bool) (s : DBState) (sess : Session) :
    (∀ username password, getUserByUsername s username = none →
      verifyUser compare s username password = false) ∧
    (∀ username password user, getUserByUsername s username = some user →
      verifyUser compare s username password = compare password user.password_hash) ∧
    (∀ u1 p1 u2 p2 : String, u1 ≠ "" → p1 ≠ "" → u2 ≠ "" → p2 ≠ "" →
      getUserByUsername s u1 = none →
      (∀ user, getUserByUsername s u2 = some user →
        compare p2 user.password_hash = false) →
      loginHandler compare s sess (some u1) (some p1) = (.invalidCredentials, sess) ∧
      loginHandler compare s sess (some u2) (some p2) = (.invalidCredentials, sess) ∧
      loginHandler compare s sess (some u1) (some p1) =
        loginHandler compare s sess (some u2) (some p2)) := by
  refine ⟨?_, ?_, ?_⟩
  · intro username password h
    unfold verifyUser
    rw [h]
  · intro username password user h
    unfold verifyUser
    rw [h]
  · intro u1 p1 u2 p2 hu1 hp1 hu2 hp2 hnone hwrong
    have hv1 : verifyUser compare s u1 p1 = false := by
      unfold verifyUser
      rw [hnone]
    have hv2 : verifyUser compare s u2 p2 = false := by
      unfold verifyUser
      cases hfind : getUserByUsername s u2 with
      | none => rfl
      | some user => exact hwrong user hfind
    have h1 : loginHandler compare s sess (some u1) (some p1)
        = (.invalidCredentials, sess) := by
      unfold loginHandler
      simp [truthy, hu1, hp1, hv1]
    have h2 : loginHandler compare s sess (some u2) (some p2)
        = (.invalidCredentials, sess) := by
      unfold loginHandler
      simp [truthy, hu2, hp2, hv2]
    exact ⟨h1, h2, by rw [h1, h2]⟩

/-- The fixed user row of the witness database for login claims: alice
with the stored hash of "correct horse". -/
def aliceRow : UserRow :=
  { id := 1, username := "alice", password_hash := regHash "correct horse",
    email := none, created_at := 0 }

/-- A database holding exactly the user alice. -/
def aliceState : DBState :=
  { users := [aliceRow], achievements := [regAchRow], user_achievements := [] }

/-- Witness for C5: login as the unknown "nobody" and login as "alice"
with the wrong password give the identical InvalidCredentials response. -/
theorem claim_C5_witness :
    loginHandler regCompare aliceState sess0 (some "nobody") (some "anything")
      = (.invalidCredentials, sess0) ∧
    loginHandler regCompare aliceState sess0 (some "alice") (some "wrong")
      = (.invalidCredentials, sess0) ∧
    loginHandler regCompare aliceState sess0 (some "nobody") (some "anything")
      = loginHandler regCompare aliceState sess0 (some "alice") (some "wrong") := by
  refine (claim_C5 regCompare aliceState sess0).2.2 "nobody" "anything" "alice" "wrong"
    (by decide) (by decide) (by decide) (by decide) (by decide) ?_
  intro user h
  have h2 : some aliceRow = some user := h
  have h3 := Option.some.inj h2
  rw [← h3]
  decide

theorem initAchievements_of_ne_nil (l : List AchievementRow) (now : Nat)
    (h : l ≠ []) : initAchievements l now = l := by
  unfold initAchievements
  rw [if_neg]
  intro hc
  rw [beq_iff_eq, List.length_eq_zero] at hc
  exact h hc

theorem initAchievements_nil_length (now : Nat) :
    (initAchievements [] now).length = 8 := rfl

theorem initAchievements_idem (l : List AchievementRow) (now now2 : Nat) :
    initAchievements (initAchievements l now) now2 = initAchievements l now := by
  by_cases h : l = []
  · subst h
    apply initAchievements_of_ne_nil
    intro hc
    have : (initAchievements [] now).length = 0 := by rw [hc]; rfl
    rw [initAchievements_nil_length] at this
    exact absurd this (by omega)
  · rw [initAchievements_of_ne_nil l now h, initAchievements_of_ne_nil l now2 h]

/-- C7: initialization is idempotent — every table is created with
create-if-not-exists semantics, and the 8-entry catalog is seeded only
into an empty achievements table, so a second initialization changes
nothing and a non-empty catalog keeps its size (8 right after seeding). -/
theorem claim_C7 :
    (∀ r now now2, initDatabase (initDatabase r now) now2 = initDatabase r now) ∧
    (∀ r, initTables (initTables r) = initTables r) ∧
    (∀ l now, l ≠ [] → initAchievements l now = l) ∧
    (∀ now, (initAchievements [] now).length = 8) ∧
    (∀ l now now2, initAchievements (initAchievements l now) now2
        = initAchievements l now) ∧
    (∀ r now now2 l, (initDatabase r now).achievements = some l →
      ((initDatabase (initDatabase r now) now2).achievements.map List.length)
        = some l.length) := by
  have hdb : ∀ r now now2, initDatabase (initDatabase r now) now2 = initDatabase r now := by
    intro r now now2
    unfold initDatabase initTables createTableIfNotExists
    cases hu : r.users <;> cases ha : r.achievements <;>
      cases hua : r.user_achievements <;>
      simp [initAchievements_idem]
  refine ⟨hdb, ?_, initAchievements_of_ne_nil, initAchievements_nil_length,
    initAchievements_idem, ?_⟩
  · intro r
    unfold initTables createTableIfNotExists
    cases hu : r.users <;> cases ha : r.achievements <;>
      cases hua : r.user_achievements <;> simp
  · intro r now now2 l h
    rw [hdb, h, Option.map_some']

/-- Witness for C7: initializing an already-seeded one-row achievements
table changes nothing, and a second full initialization run is a no-op. -/
theorem claim_C7_witness :
    initAchievements [regAchRow] 9 = [regAchRow] ∧
    initDatabase (initDatabase
      { users := none, achievements := none, user_achievements := none } 0) 1 =
      initDatabase
        { users := none, achievements := none, user_achievements := none } 0 := by
  exact ⟨claim_C7.2.2.1 [regAchRow] 9 (by decide),
    claim_C7.1 { users := none, achievements := none, user_achievements := none } 0 1⟩

/-- C8: both listings are ordered by (category, id) ascending and contain
exactly the catalog rows; for an anonymous viewer every entry is reported
locked, the count equals the catalog size (8 right after seeding), and the
response is computed without consulting the `user_achievements` table. -/
theorem claim_C8 :
    (∀ s, (getAllAchievements s).Pairwise (fun a b => achLE a b = true) ∧
      (getAllAchievements s).Perm s.achievements) ∧
    (∀ s userId, getUserAchievements s userId =
        (getAllAchievements s).map (fun a => (a, uaExists s userId a.id)) ∧
      ((getUserAchievements s userId).map Prod.fst).Pairwise
        (fun a b => achLE a b = true)) ∧
    (∀ s sess, sess.userId = none →
      achievementsHandler s sess =
        ((getAllAchievements s).map (fun a => (a, false)), none) ∧
      (∀ e ∈ (achievementsHandler s sess).1, e.2 = false) ∧
      (achievementsHandler s sess).1.length = s.achievements.length) ∧
    (∀ (s : DBState) (ua1 ua2 : List UARow) (sess : Session), sess.userId = none →
      achievementsHandler { s with user_achievements := ua1 } sess =
        achievementsHandler { s with user_achievements := ua2 } sess) ∧
    (∀ now, (achievementsHandler
        { users := [], achievements := initAchievements [] now,
          user_achievements := [] } sess0).1.length = 8) := by
  have hsorted : ∀ s, (getAllAchievements s).Pairwise (fun a b => achLE a b = true) :=
    fun s => sortRows_sorted achLE achLE_trans achLE_total s.achievements
  have hperm : ∀ s, (getAllAchievements s).Perm s.achievements :=
    fun s => sortRows_perm achLE s.achievements
  have hguest : ∀ s sess, sess.userId = none →
      achievementsHandler s sess =
        ((getAllAchievements s).map (fun a => (a, false)), none) := by
    intro s sess h
    unfold achievementsHandler
    rw [h]
  refine ⟨fun s => ⟨hsorted s, hperm s⟩, ?_, ?_, ?_, ?_⟩
  · intro s userId
    refine ⟨rfl, ?_⟩
    have hmap : (getUserAchievements s userId).map Prod.fst = getAllAchievements s := by
      unfold getUserAchievements getAllAchievements
      rw [List.map_map]
      exact List.map_id _
    rw [hmap]
    exact hsorted s
  · intro s sess h
    refine ⟨hguest s sess h, ?_, ?_⟩
    · intro e he
      rw [hguest s sess h] at he
      simp only [List.mem_map] at he
      obtain ⟨a, _, rfl⟩ := he
      rfl
    · rw [hguest s sess h]
      simp only [List.length_map]
      exact (hperm s).length_eq
  · intro s ua1 ua2 sess h
    rw [hguest _ sess h, hguest _ sess h]
    rfl
  · intro now
    rw [hguest _ sess0 rfl]
    simp only [List.length_map]
    rw [(hperm _).length_eq]
    exact initAchievements_nil_length now

/-- Witness for C8: the anonymous listing over the one-achievement witness
database is the all-locked catalog and counts one entry. -/
theorem claim_C8_witness :
    achievementsHandler witnessState sess0 =
      ((getAllAchievements witnessState).map (fun a => (a, false)), none) ∧
    (achievementsHandler witnessState sess0).1.length = 1 := by
  have h := claim_C8.2.2.1 witnessState sess0 rfl
  exact ⟨h.1, h.2.2⟩

/-- C9: `getUserByUsername` returns the complete stored row — the
password_hash column included, tracking any change of the stored hashes —
whereas `getUserById` returns only the id/username/email/created_at
projection and is insensitive to every stored password hash. -/
theorem claim_C9 :
    (∀ s username user, getUserByUsername s username = some user →
      user ∈ s.users ∧ user.username = username) ∧
    (∀ s userId pu, getUserById s userId = some pu →
      ∃ u, u ∈ s.users ∧ u.id = userId ∧
        pu = { id := u.id, username := u.username, email := u.email,
               created_at := u.created_at }) ∧
    (∀ f s userId, getUserById (mapHashes f s) userId = getUserById s userId) ∧
    (∀ (f : String → String) (s : DBState) (username : String) (user : UserRow),
      getUserByUsername s username = some user →
      getUserByUsername (mapHashes f s) username =
        some ({ user with password_hash := f user.password_hash } : UserRow)) := by
  refine ⟨?_, ?_, ?_, ?_⟩
  · intro s username user h
    unfold getUserByUsername at h
    refine ⟨List.mem_of_find?_eq_some h, ?_⟩
    have hp := List.find?_some h
    simpa using hp
  · intro s userId pu h
    unfold getUserById at h
    rw [Option.map_eq_some'] at h
    obtain ⟨u, hu, hpu⟩ := h
    refine ⟨u, List.mem_of_find?_eq_some hu, ?_, hpu.symm⟩
    have hp := List.find?_some hu
    simpa using hp
  · intro f s userId
    unfold getUserById mapHashes
    rw [List.find?_map]
    rw [Option.map_map]
    rfl
  · intro f s username user h
    unfold getUserByUsername at h ⊢
    unfold mapHashes
    rw [List.find?_map]
    show ((s.users.find? (fun u => u.username == username)).map
      (fun u => { u with password_hash := f u.password_hash })) = _
    rw [h]
    rfl

/-- Witness for C9: looking alice up by username returns the stored row
with its hash; looking her up by id is unchanged when every hash is
rewritten. -/
theorem claim_C9_witness :
    (aliceRow ∈ aliceState.users ∧ aliceRow.username = "alice") ∧
    getUserById (mapHashes (fun h => h ++ "!") aliceState) 1 =
      getUserById aliceState 1 := by
  exact ⟨claim_C9.1 aliceState "alice" aliceRow rfl,
    claim_C9.2.2.1 (fun h => h ++ "!") aliceState 1⟩

theorem codeValidate_ne_success (username password email : Option String)
    (uid : Nat) (u : String) :
    codeValidate username password email ≠ some (.success uid u) := by
  intro h
  unfold codeValidate at h
  split at h
  · simp at h
  · split at h
    · simp at h
    · split at h
      · simp at h
      · split at h
        · split at h
          · simp at h
          · simp at h
        · simp at h

/-- C10: when the register handler answers with the success result
{id, username}, the session has already been set to exactly that user id
and username — registration logs the caller in as a side effect. -/
theorem claim_C10 (hash : String → String) (s : DBState) (sess : Session)
    (username password email : Option String) (unlockErr : Bool) (now : Nat)
    (uid : Nat) (un : String)
    (h : (registerHandler hash s sess username password email unlockErr now).1
      = .success uid un) :
    (registerHandler hash s sess username password email unlockErr now).2.1 =
      { userId := some uid, username := some un } := by
  revert h
  unfold registerHandler
  cases hcv : codeValidate username password email with
  | some err =>
    intro h
    simp only at h
    rw [h] at hcv
    exact absurd hcv (codeValidate_ne_success username password email uid un)
  | none =>
    cases hfind : getUserByUsername s (username.getD "") with
    | some v =>
      intro h
      simp at h
    | none =>
      cases hcreate : createUser hash s (username.getD "") (password.getD "")
          (cleanEmailOf email) now with
      | error m =>
        intro h
        simp at h
      | ok val =>
        obtain ⟨userId, s1⟩ := val
        cases unlockErr with
        | true =>
          intro h
          simp at h
        | false =>
          intro h
          simp only [Bool.false_eq_true, if_false] at h ⊢
          rw [RegisterResult.success.injEq] at h
          rw [h.1, h.2]

/-- Witness for C10: a concrete successful registration leaves the session
holding the new user. -/
theorem claim_C10_witness :
    (registerHandler regHash witnessState sess0 (some "alice") (some "secret123")
        none false 5).2.1 = { userId := some 1, username := some "alice" } :=
  claim_C10 regHash witnessState sess0 (some "alice") (some "secret123")
    none false 5 1 "alice" (by decide)

/-- The three rule categories of the validation order claimed by the spec. -/
inductive SpecValidationError where
  | usernameInvalid
  | passwordInvalid
  | emailInvalid
deriving Repr, DecidableEq

/-- The validation procedure exactly as the spec words it, for comparison
with `codeValidate`: checked in order with first failure winning —
username present and at least 3 characters, then password present and at
least 6 characters, then the email shape when an email is provided and
non-blank. -/
def specOrderedValidate (username password email : Option String) :
    Option SpecValidationError :=
  if !(truthy username && decide (3 ≤ (username.getD "").length)) then
    some .usernameInvalid
  else if !(truthy password && decide (6 ≤ (password.getD "").length)) then
    some .passwordInvalid
  else
    match cleanEmailOf email with
    | some e => if emailRegexTest e then none else some .emailInvalid
    | none => none

theorem string_ne_empty_beq (u : String) (h : u ≠ "") : (u == "") = false :=
  beq_eq_false_iff_ne.mpr h

theorem getUserByUsername_eq_none (s : DBState) (u : String)
    (h : usernameExists s u = false) : getUserByUsername s u = none := by
  unfold getUserByUsername
  rw [List.find?_eq_none]
  intro x hx hbeq
  have h2 : usernameExists s u = true := by
    unfold usernameExists
    rw [List.any_eq_true]
    exact ⟨x, hx, hbeq⟩
  rw [h] at h2
  exact Bool.false_ne_true h2

theorem unlockAchievement_users (s : DBState) (userId : Nat)
    (name : String) (now : Nat) :
    (unlockAchievement s userId name now).2.users = s.users := by
  unfold unlockAchievement
  cases hfind : findAchievementByName s name with
  | none => rfl
  | some a =>
    by_cases hex : uaExists s userId a.id = true
    · simp [hex]
    · simp [hex]

theorem registerHandler_blankEmail_success (hash : String → String)
    (s : DBState) (sess : Session) (u p : String) (now : Nat)
    (hu : 3 ≤ u.length) (hp : 6 ≤ p.length)
    (hex : usernameExists s u = false) :
    (registerHandler hash s sess (some u) (some p) (some "") false now).1
        = .success (nextUserId s) u ∧
    (registerHandler hash s sess (some u) (some p) (some "") false now).2.1
        = { userId := some (nextUserId s), username := some u } ∧
    (registerHandler hash s sess (some u) (some p) (some "") false now).2.2.users
        = s.users ++ [{ id := nextUserId s, username := u,
                        password_hash := hash p, email := none,
                        created_at := now }] := by
  have hu0 : (u == "") = false := by
    rw [beq_eq_false_iff_ne]
    intro hc
    rw [hc] at hu
    exact absurd hu (by decide)
  have hp0 : (p == "") = false := by
    rw [beq_eq_false_iff_ne]
    intro hc
    rw [hc] at hp
    exact absurd hp (by decide)
  have hval : codeValidate (some u) (some p) (some "") = none := by
    unfold codeValidate truthy cleanEmailOf
    simp [hu0, hp0, Nat.not_lt.mpr hu, Nat.not_lt.mpr hp]
  have hfind : getUserByUsername s u = none := getUserByUsername_eq_none s u hex
  have hcreate : createUser hash s u p (cleanEmailOf (some "")) now =
      .ok (nextUserId s, { s with users := s.users ++
        [{ id := nextUserId s, username := u, password_hash := hash p,
           email := none, created_at := now }] }) := by
    show createUser hash s u p none now = _
    unfold createUser
    rw [hex]
    rfl
  have main : registerHandler hash s sess (some u) (some p) (some "") false now =
      (.success (nextUserId s) u,
       { userId := some (nextUserId s), username := some u },
       (unlockAchievement ({ s with users := s.users ++
          [{ id := nextUserId s, username := u, password_hash := hash p,
             email := none, created_at := now }] }) (nextUserId s)
          "With Registration!" now).2) := by
    unfold registerHandler
    rw [hval]
    show (match getUserByUsername s u with
      | some _ => (RegisterResult.usernameTaken, sess, s)
      | none =>
        match createUser hash s u p (cleanEmailOf (some "")) now with
        | .error m => (RegisterResult.serverError (catchMessage m), sess, s)
        | .ok (userId, s1) =>
          if false then
            (RegisterResult.serverError "Internal server error",
             { userId := some userId, username := some u }, s1)
          else
            (RegisterResult.success userId u,
             { userId := some userId, username := some u },
             (unlockAchievement s1 userId "With Registration!" now).2)) = _
    rw [hfind, hcreate]
    rfl
  refine ⟨by rw [main], by rw [main], ?_⟩
  rw [main]
  exact unlockAchievement_users _ _ _ _

/-- C6 counterexample: the inputs (username "abc", password "") and
(username "", password "secret123") have different first failing rules
under the claimed order (the password rule and the username rule
respectively), yet the code answers both with the same combined presence
error — so the code does not report the first failure of the claimed
ordered checks. -/
theorem claim_C6_counterexample :
    codeValidate (some "abc") (some "") none
      = codeValidate (some "") (some "secret123") none ∧
    specOrderedValidate (some "abc") (some "") none
      ≠ specOrderedValidate (some "") (some "secret123") none ∧
    codeValidate (some "abc") (some "") none = some .missingFields ∧
    specOrderedValidate (some "abc") (some "") none = some .passwordInvalid ∧
    specOrderedValidate (some "") (some "secret123") none
      = some .usernameInvalid := by
  decide

/-- C6 (amended): registration accepts exactly the inputs accepted by the
claimed ordered rules, but presence of username and password is checked
first as one combined error, then username length, then password length,
then the email shape; a blank or absent email is normalized to null
before storage, so two different users each registering with email = ""
both succeed without a uniqueness conflict. -/
theorem claim_C6 :
    (∀ username password email,
      codeValidate username password email = none ↔
        specOrderedValidate username password email = none) ∧
    (∀ username password email,
      codeValidate username password email = some .missingFields ↔
        (truthy username && truthy password) = false) ∧
    (∀ username password email, truthy username = true → truthy password = true →
      (username.getD "").length < 3 →
      codeValidate username password email = some .usernameTooShort) ∧
    (∀ username password email, truthy username = true → truthy password = true →
      3 ≤ (username.getD "").length → (password.getD "").length < 6 →
      codeValidate username password email = some .passwordTooShort) ∧
    (∀ username password email e, truthy username = true → truthy password = true →
      3 ≤ (username.getD "").length → 6 ≤ (password.getD "").length →
      cleanEmailOf email = some e → emailRegexTest e = false →
      codeValidate username password email = some .invalidEmail) ∧
    (cleanEmailOf (some "") = none ∧ cleanEmailOf none = none) ∧
    (∀ (hash : String → String) (s : DBState) (sess : Session)
      (u1 p1 u2 p2 : String) (now now2 : Nat),
      3 ≤ u1.length → 6 ≤ p1.length → 3 ≤ u2.length → 6 ≤ p2.length →
      usernameExists s u1 = false → usernameExists s u2 = false → u1 ≠ u2 →
      (registerHandler hash s sess (some u1) (some p1) (some "") false now).1
          = .success (nextUserId s) u1 ∧
      (registerHandler hash s sess (some u1) (some p1) (some "") false now).2.2.users
          = s.users ++ [{ id := nextUserId s, username := u1,
                          password_hash := hash p1, email := none,
                          created_at := now }] ∧
      ∃ id2, (registerHandler hash
          (registerHandler hash s sess (some u1) (some p1) (some "") false now).2.2
          (registerHandler hash s sess (some u1) (some p1) (some "") false now).2.1
          (some u2) (some p2) (some "") false now2).1 = .success id2 u2) := by
  refine ⟨?_, ?_, ?_, ?_, ?_, ⟨rfl, rfl⟩, ?_⟩
  · intro username password email
    unfold codeValidate specOrderedValidate
    cases hce : cleanEmailOf email with
    | none =>
      by_cases h1 : truthy username = true <;>
        by_cases h2 : truthy password = true <;>
        by_cases h3 : (username.getD "").length < 3 <;>
        by_cases h4 : (password.getD "").length < 6 <;>
        simp [h1, h2, h3, h4]
    | some e =>
      by_cases h5 : emailRegexTest e = true <;>
        by_cases h1 : truthy username = true <;>
        by_cases h2 : truthy password = true <;>
        by_cases h3 : (username.getD "").length < 3 <;>
        by_cases h4 : (password.getD "").length < 6 <;>
        simp [h1, h2, h3, h4, h5]
  · intro username password email
    unfold codeValidate
    cases hce : cleanEmailOf email with
    | none =>
      by_cases h1 : truthy username = true <;>
        by_cases h2 : truthy password = true <;>
        by_cases h3 : (username.getD "").length < 3 <;>
        by_cases h4 : (password.getD "").length < 6 <;>
        simp [h1, h2, h3, h4]
    | some e =>
      by_cases h5 : emailRegexTest e = true <;>
        by_cases h1 : truthy username = true <;>
        by_cases h2 : truthy password = true <;>
        by_cases h3 : (username.getD "").length < 3 <;>
        by_cases h4 : (password.getD "").length < 6 <;>
        simp [h1, h2, h3, h4, h5]
  · intro username password email h1 h2 h3
    unfold codeValidate
    simp [h1, h2, h3]
  · intro username password email h1 h2 h3 h4
    unfold codeValidate
    simp [h1, h2, Nat.not_lt.mpr h3, h4]
  · intro username password email e h1 h2 h3 h4 hce h5
    unfold codeValidate
    simp [h1, h2, Nat.not_lt.mpr h3, Nat.not_lt.mpr h4, hce, h5]
  · intro hash s sess u1 p1 u2 p2 now now2 hu1 hp1 hu2 hp2 hex1 hex2 hne
    obtain ⟨h1, h2, h3⟩ :=
      registerHandler_blankEmail_success hash s sess u1 p1 now hu1 hp1 hex1
    refine ⟨h1, h3, ?_⟩
    have hex2b : usernameExists
        (registerHandler hash s sess (some u1) (some p1) (some "") false now).2.2
        u2 = false := by
      unfold usernameExists
      rw [h3, List.any_append]
      have ha : s.users.any (fun u => u.username == u2) = false := hex2
      rw [ha]
      simp only [List.any_cons, List.any_nil, Bool.or_false, Bool.false_or]
      exact beq_eq_false_iff_ne.mpr hne
    obtain ⟨g1, _, _⟩ := registerHandler_blankEmail_success hash
      (registerHandler hash s sess (some u1) (some p1) (some "") false now).2.2
      (registerHandler hash s sess (some u1) (some p1) (some "") false now).2.1
      u2 p2 now2 hu2 hp2 hex2b
    exact ⟨_, g1⟩

/-- Witness for C6 (amended): two concrete users registering with blank
emails both succeed, the first stored with a null email. -/
theorem claim_C6_witness :
    (registerHandler regHash witnessState sess0 (some "alice") (some "secret123")
        (some "") false 5).1 = .success (nextUserId witnessState) "alice" ∧
    (registerHandler regHash witnessState sess0 (some "alice") (some "secret123")
        (some "") false 5).2.2.users
      = witnessState.users ++
        [{ id := nextUserId witnessState, username := "alice",
           password_hash := regHash "secret123", email := none,
           created_at := 5 }] ∧
    ∃ id2, (registerHandler regHash
        (registerHandler regHash witnessState sess0 (some "alice") (some "secret123")
          (some "") false 5).2.2
        (registerHandler regHash witnessState sess0 (some "alice") (some "secret123")
          (some "") false 5).2.1
        (some "bobby") (some "hunter222") (some "") false 6).1
      = .success id2 "bobby" :=
  claim_C6.2.2.2.2.2.2 regHash witnessState sess0 "alice" "secret123" "bobby"
    "hunter222" 5 6 (by decide) (by decide) (by decide) (by decide)
    (by decide) (by decide) (by decide)

end XtteamSite
